import Mathlib

/-!
Verification development for the Shopify Store Insights Fetcher repository.

The data model is translated from the frontend type declarations
(`frontend/src/types`, file `src/unnamed/part_001`); the frontend behaviour
(`App.handleFetchInsights`, `InsightForm.handleSubmit`,
`LLMAnalysis.parseAnalysis` / `generateBasicAnalysis`,
`InsightResults` policy rendering) is translated from
`src/unnamed/part_000` and `src/frontend/src/components/LLMAnalysis.tsx`.
The backend extraction pipeline (FastAPI app under `backend/`) is not part
of the source tree; where a claim depends on it, the relevant component is
modelled from the specification (each such definition carries a doc comment
starting with "Modelled from the spec:").
-/

/-- JavaScript whitespace, the character class removed by
`String.prototype.trim` (ECMAScript WhiteSpace and LineTerminator):
TAB, LF, VT, FF, CR, SP, NBSP, ZWNBSP, the Unicode space separators,
and the line/paragraph separators. -/
def isJsWhitespace (c : Char) : Bool :=
  c = '\t' || c = '\n' || c.val = 0x0B || c.val = 0x0C || c = '\r' ||
  c = ' ' || c.val = 0xA0 || c.val = 0xFEFF || c.val = 0x1680 ||
  (0x2000 ≤ c.val && c.val ≤ 0x200A) || c.val = 0x202F || c.val = 0x205F ||
  c.val = 0x3000 || c.val = 0x2028 || c.val = 0x2029

/-- JavaScript `String.prototype.trim`: strip leading and trailing
JavaScript whitespace. -/
def jsTrim (s : String) : String :=
  String.mk (((s.toList.dropWhile isJsWhitespace).reverse.dropWhile
    isJsWhitespace).reverse)

/-- Whether the pattern is a prefix of the character list. -/
def startsWithChars : List Char → List Char → Bool
  | _, [] => true
  | [], _ :: _ => false
  | c :: cs, p :: ps => c = p && startsWithChars cs ps

/-- Whether the pattern occurs as a contiguous sublist. -/
def containsChars : List Char → List Char → Bool
  | [], p => p.isEmpty
  | c :: cs, p => startsWithChars (c :: cs) p || containsChars cs p

/-- JavaScript `String.prototype.includes` for a fixed pattern:
substring containment test. -/
def strContains (s pat : String) : Bool :=
  containsChars s.toList pat.toList

/-- JavaScript `line.replace(/\*\*/g, '')`: remove every `**`
occurrence, scanning left to right without overlap. -/
def removeStars : List Char → List Char
  | [] => []
  | '*' :: '*' :: cs => removeStars cs
  | c :: cs => c :: removeStars cs

/-- JavaScript `text.split('\n')`: split at every newline, keeping
empty segments. -/
def splitLinesAux : List Char → List Char → List String
  | [], acc => [String.mk acc.reverse]
  | c :: cs, acc =>
    if c = '\n' then String.mk acc.reverse :: splitLinesAux cs []
    else splitLinesAux cs (c :: acc)

/-- JavaScript `text.split('\n')` on a string. -/
def splitLines (s : String) : List String :=
  splitLinesAux s.toList []

/-- Translated from `src/unnamed/part_001` (`interface Product`):
the product record of the wire contract.  TypeScript `number` ids are
integral product identifiers, modelled as `Nat`. -/
structure Product where
  id : Option Nat
  title : String
  description : Option String
  price : Option String
  currency : Option String
  image_url : Option String
  product_url : Option String
  available : Option Bool
  tags : Option (List String)
  category : Option String
deriving Repr, DecidableEq

/-- Translated from `src/unnamed/part_001` (`interface Policy`):
five optional policy texts, one per policy kind. -/
structure Policy where
  privacy_policy : Option String
  return_policy : Option String
  refund_policy : Option String
  shipping_policy : Option String
  terms_of_service : Option String
deriving Repr, DecidableEq

/-- Translated from `src/unnamed/part_001` (`interface FAQ`). -/
structure FAQ where
  question : String
  answer : String
  category : Option String
deriving Repr, DecidableEq

/-- Translated from `src/unnamed/part_001` (`interface SocialHandle`). -/
structure SocialHandle where
  platform : String
  handle : String
  url : Option String
deriving Repr, DecidableEq

/-- Translated from `src/unnamed/part_001` (`interface ContactInfo`). -/
structure ContactInfo where
  emails : List String
  phone_numbers : List String
  addresses : List String
  contact_form_url : Option String
deriving Repr, DecidableEq

/-- Translated from `src/unnamed/part_001` (`interface ImportantLink`). -/
structure ImportantLink where
  title : String
  url : String
  description : Option String
deriving Repr, DecidableEq

/-- Shape functor for `StoreInsights` (from `src/unnamed/part_001`,
`interface StoreInsights`), abstracted over the competitor type so the
mutual recursion with `Competitor` (whose `insights` field is again a
`StoreInsights`) can be tied below. Field names and order follow the
TypeScript interface. -/
structure StoreInsightsF (C : Type) where
  brand_name : String
  website_url : String
  products : List Product
  hero_products : List Product
  policies : Policy
  faqs : List FAQ
  social_handles : List SocialHandle
  contact_info : ContactInfo
  brand_context : Option String
  important_links : List ImportantLink
  competitors : List C
  scraped_at : String
  total_products : Nat
  store_theme : Option String
  currency : Option String
  language : Option String

/-- Translated from `src/unnamed/part_001` (`interface Competitor`):
a competitor store, optionally carrying a nested `StoreInsights` from the
reduced re-run. -/
inductive Competitor : Type where
  | mk (name : String) (website_url : String) (description : Option String)
      (insights : Option (StoreInsightsF Competitor)) : Competitor

/-- Translated from `src/unnamed/part_001` (`interface StoreInsights`):
the aggregate root of the wire contract. -/
abbrev StoreInsights : Type := StoreInsightsF Competitor

/-- Translated from `src/unnamed/part_001` (`interface InsightResponse`):
the API response envelope. `processing_time` is a TypeScript `number`,
modelled as a rational. -/
structure InsightResponse where
  success : Bool
  data : Option StoreInsights
  error : Option String
  message : Option String
  processing_time : Option Rat

/-- JavaScript `a || b` for a possibly-absent string: the left operand is
taken unless it is absent or falsy (the empty string). Used to translate
`response.error || 'Failed to fetch insights'`. -/
def jsOrString (a : Option String) (b : String) : String :=
  match a with
  | some s => if s = "" then b else s
  | none => b

/-- Outcome of the API call as seen by `App.handleFetchInsights`
(`src/unnamed/part_000`): either a decoded `InsightResponse`, or an
exception thrown by the API layer (network failure, HTTP error), carrying
its message. -/
inductive FetchResult : Type where
  | ok (r : InsightResponse)
  | thrown (msg : String)

/-- The slice of the `App` component state written by
`handleFetchInsights` (`src/unnamed/part_000`): the `insights` and
`error` state hooks after the handler settles (`loading` is back to
`false` in every branch of the `finally`). -/
structure AppState where
  insights : Option StoreInsights
  error : Option String

/-- Translated from `src/unnamed/part_000`, `App.handleFetchInsights`:
on `response.success && response.data` the aggregate is stored and the
error cleared; otherwise the single error string
(`response.error || 'Failed to fetch insights'`) is stored; a thrown
exception stores its message. -/
def handleFetchInsights : FetchResult → AppState
  | .ok r =>
    match r.data with
    | some d =>
      if r.success then { insights := some d, error := none }
      else { insights := none, error := some (jsOrString r.error "Failed to fetch insights") }
    | none => { insights := none, error := some (jsOrString r.error "Failed to fetch insights") }
  | .thrown m => { insights := none, error := some m }

/-- C0 control or space: the character class stripped from both ends of
the input by the WHATWG basic URL parser (URL Standard, step 1). -/
def isC0OrSpace (c : Char) : Bool :=
  c.val ≤ 0x20

/-- Forbidden host code points of the URL Standard (including the
forbidden domain code points): a host containing one of these makes the
parse fail. -/
def isForbiddenHostChar (c : Char) : Bool :=
  c.val ≤ 0x1F || c = ' ' || c = '#' || c = '/' || c = ':' || c = '<' ||
  c = '>' || c = '?' || c = '@' || c = '[' || c = '\\' || c = ']' ||
  c = '^' || c = '|' || c = '%' || c.val = 0x7F

/-- The special URL schemes of the URL Standard. -/
def specialSchemes : List String :=
  ["http", "https", "ws", "wss", "ftp", "file"]

/-- Scheme characters allowed after the first (URL Standard scheme
state): ASCII alphanumeric, `+`, `-`, `.`. -/
def isSchemeChar (c : Char) : Bool :=
  c.isAlphanum || c = '+' || c = '-' || c = '.'

/-- Split the preprocessed input into scheme and remainder: the scheme
must start with an ASCII alpha, continue with scheme characters and end
at a colon (URL Standard scheme start / scheme states). -/
def schemeSplit : List Char → Option (String × List Char)
  | [] => none
  | c :: cs =>
    if c.isAlpha then
      let schemeRest := cs.takeWhile isSchemeChar
      let afterScheme := cs.drop schemeRest.length
      match afterScheme with
      | ':' :: rest => some (String.mk (Char.toLower c :: schemeRest.map Char.toLower), rest)
      | _ => none
    else none

/-- Host-and-port validity for a special (non-file) scheme: the
authority runs to the first `/`, `\`, `?` or `#`; the host (before an
optional `:port`) must be non-empty and free of forbidden host code
points, and the port must be all ASCII digits. -/
def hostPortOk (rest : List Char) : Bool :=
  let authority := rest.takeWhile (fun c => !(c = '/' || c = '\\' || c = '?' || c = '#'))
  let host := authority.takeWhile (fun c => c ≠ ':')
  let port := (authority.drop host.length).drop 1
  !host.isEmpty && host.all (fun c => !isForbiddenHostChar c) && port.all Char.isDigit

/-- Whether `new URL(s)` succeeds: a fragment of the WHATWG basic URL
parser sufficient for the strings at issue. The input is stripped of
leading/trailing C0 controls and spaces, ASCII tab/newline are removed
throughout, a scheme is required, and a special non-file scheme must be
followed (after any run of slashes) by a valid non-empty host; other
schemes take the opaque-path branch, which does not fail. -/
def urlParseOk (s : String) : Bool :=
  let cs := ((s.toList.dropWhile isC0OrSpace).reverse.dropWhile isC0OrSpace).reverse
  let cs := cs.filter (fun c => !(c = '\t' || c = '\n' || c = '\r'))
  match schemeSplit cs with
  | none => false
  | some (scheme, rest) =>
    if scheme ∈ specialSchemes && scheme ≠ "file" then
      hostPortOk (rest.dropWhile (fun c => c = '/' || c = '\\'))
    else true

/-- Outcome of one `InsightForm.handleSubmit` invocation
(`src/frontend/src/components/LLMAnalysis.tsx`): either the argument
passed to `onSubmit`, or the validation error message set instead. -/
structure SubmitOutcome where
  submitted : Option String
  validationError : Option String
deriving Repr, DecidableEq

/-- Translated from `InsightForm.handleSubmit`
(`src/frontend/src/components/LLMAnalysis.tsx`, lines 276-297): an empty
trimmed input sets the first validation error; `new URL(websiteUrl)` is
attempted on the input as entered (not the trimmed string) and on failure
sets the second validation error; otherwise `onSubmit` receives the
trimmed URL. -/
def handleSubmit (websiteUrl : String) : SubmitOutcome :=
  if jsTrim websiteUrl = "" then
    { submitted := none, validationError := some "Please enter a website URL" }
  else if !urlParseOk websiteUrl then
    { submitted := none, validationError := some "Please enter a valid URL" }
  else
    { submitted := some (jsTrim websiteUrl), validationError := none }

/-- One analysis card of the `LLMAnalysis` component
(`src/frontend/src/components/LLMAnalysis.tsx`, `interface
AnalysisSection`); the `icon` field is a React node and carries no data,
so only `title`, `content` and `color` are modelled. -/
structure AnalysisSection where
  title : String
  content : String
  color : String
deriving Repr, DecidableEq

/-- Translated from `LLMAnalysis.parseAnalysis`
(`src/frontend/src/components/LLMAnalysis.tsx`, `sectionData`): the seven
recognized section titles with their card colors. -/
def sectionData : List (String × String) :=
  [("Brand Overview", "bg-blue-50 border-blue-200"),
   ("Market Analysis", "bg-indigo-50 border-indigo-200"),
   ("Product Strategy", "bg-green-50 border-green-200"),
   ("Customer Experience", "bg-purple-50 border-purple-200"),
   ("Digital Presence", "bg-orange-50 border-orange-200"),
   ("Trends & Popularity", "bg-pink-50 border-pink-200"),
   ("Business Intelligence", "bg-yellow-50 border-yellow-200")]

/-- The fixed seven-title set of `sectionData`. -/
def sectionTitles : List String :=
  sectionData.map Prod.fst

/-- Translated from `LLMAnalysis.parseAnalysis`: the push performed when
a section header line is met (and once more after the loop) — the pending
section is appended only when both the section name and the accumulated
content are non-empty (JavaScript truthiness) and the name matches a
`sectionData` title exactly; its content is trimmed. -/
def pushSection (secs : List AnalysisSection) (cur content : String) :
    List AnalysisSection :=
  if cur ≠ "" ∧ content ≠ "" then
    match sectionData.find? (fun sd => sd.1 = cur) with
    | some sd => secs ++ [{ title := sd.1, content := jsTrim content, color := sd.2 }]
    | none => secs
  else secs

/-- Translated from `LLMAnalysis.parseAnalysis`: one step of the
line-by-line loop. A line containing `**` starts a new section (its name
is the line with every `**` removed, trimmed); other non-blank lines are
appended to the current content while a section is open. -/
def parseStep (st : String × String × List AnalysisSection) (line : String) :
    String × String × List AnalysisSection :=
  let (cur, content, secs) := st
  if strContains line "**" then
    (jsTrim (String.mk (removeStars line.toList)), "", pushSection secs cur content)
  else if jsTrim line ≠ "" ∧ cur ≠ "" then
    (cur, content ++ jsTrim line ++ " ", secs)
  else
    (cur, content, secs)

/-- Translated from `LLMAnalysis.parseAnalysis`: the sections recognized
in the input text — the loop over `text.split('\n')` followed by the
final push of the pending section. -/
def parsedSections (text : String) : List AnalysisSection :=
  let st := (splitLines text).foldl parseStep ("", "", [])
  pushSection st.2.2 st.1 st.2.1

/-- Translated from `LLMAnalysis.generateBasicAnalysis`
(`src/frontend/src/components/LLMAnalysis.tsx`, lines 136-181): the
seven-section fallback analysis built from the insights counts. -/
def generateBasicAnalysis (insights : StoreInsights) : List AnalysisSection :=
  [{ title := "Brand Overview",
     content := insights.brand_name ++ " appears to be a Shopify store with " ++
       toString insights.products.length ++
       " products. The brand focuses on providing quality products to their customers with a target audience spanning multiple age groups.",
     color := "bg-blue-50 border-blue-200" },
   { title := "Market Analysis",
     content := "The store operates in a competitive e-commerce landscape with significant market scope. The " ++
       toString insights.total_products ++
       " products suggest a substantial market presence and potential for growth.",
     color := "bg-indigo-50 border-indigo-200" },
   { title := "Product Strategy",
     content := "The store offers " ++ toString insights.hero_products.length ++
       " featured products, suggesting a curated approach to product selection with strategic pricing and positioning.",
     color := "bg-green-50 border-green-200" },
   { title := "Customer Experience",
     content := "Customer service is supported through " ++
       toString insights.contact_info.emails.length ++ " contact methods and " ++
       toString insights.faqs.length ++
       " FAQ items, indicating a focus on customer satisfaction.",
     color := "bg-purple-50 border-purple-200" },
   { title := "Digital Presence",
     content := "The brand maintains " ++ toString insights.social_handles.length ++
       " social media channels for digital engagement and marketing, showing strong online presence.",
     color := "bg-orange-50 border-orange-200" },
   { title := "Trends & Popularity",
     content := "The store\x27s product variety and social media presence suggest they\x27re keeping up with current trends and maintaining relevance in their market.",
     color := "bg-pink-50 border-pink-200" },
   { title := "Business Intelligence",
     content := "With " ++ toString insights.total_products ++
       " total products and comprehensive customer support, this store shows strong business fundamentals and potential for expansion.",
     color := "bg-yellow-50 border-yellow-200" }]

/-- Translated from `LLMAnalysis.parseAnalysis`: the recognized sections
when at least one was parsed, else the basic fallback. -/
def parseAnalysis (insights : StoreInsights) (text : String) :
    List AnalysisSection :=
  let secs := parsedSections text
  if secs.length > 0 then secs else generateBasicAnalysis insights

/-- Translated from the policies tab of `InsightResults`
(`src/frontend/src/components/LLMAnalysis.tsx`, lines 589-605):
`Object.entries(insights.policies)` with falsy (absent or empty) values
skipped — the key/value pairs the presentation layer renders. -/
def policyEntries (p : Policy) : List (String × String) :=
  ([("privacy_policy", p.privacy_policy),
    ("return_policy", p.return_policy),
    ("refund_policy", p.refund_policy),
    ("shipping_policy", p.shipping_policy),
    ("terms_of_service", p.terms_of_service)]).filterMap
    (fun kv => match kv.2 with
      | some t => if t = "" then none else some (kv.1, t)
      | none => none)

/-- The five policy keys of the `Policy` interface
(`src/unnamed/part_001`). -/
def policyKeyNames : List String :=
  ["privacy_policy", "return_policy", "refund_policy", "shipping_policy",
   "terms_of_service"]

/-- Modelled from the spec: §4.2 CatalogExtractor — an item of the
machine-readable JSON product feed before normalization (the backend
catalog code is not part of the source tree). -/
structure RawProduct where
  id : Nat
  title : String
  description : Option String
  price : Option String
  currency : Option String
  image_url : Option String
  product_url : Option String
  available : Option Bool
  tags : Option (List String)
  category : Option String
deriving Repr, DecidableEq

/-- Modelled from the spec: §6 run-level configuration — bounded page
size, maximum catalog pages, maximum competitor count, and the minimum
length threshold of §4.9 BrandContextExtractor. -/
structure RunConfig where
  pageSize : Nat
  maxPages : Nat
  maxCompetitors : Nat
  minContextLen : Nat
deriving Repr, DecidableEq

/-- Modelled from the spec: §4.2 — the decision to stop requesting
further pages after the current one: the page returned fewer items than
the page size, or two consecutive pages yielded zero new distinct
product identifiers. -/
def stopAfter (pageSize itemsLen streak : Nat) : Bool :=
  decide (itemsLen < pageSize) || decide (2 ≤ streak)

/-- Modelled from the spec: §4.2 — the distinct product identifiers of a
page not seen on earlier pages. -/
def newIds (seen : List Nat) (items : List RawProduct) : List Nat :=
  ((items.map RawProduct.id).filter (fun i => !seen.contains i)).dedup

/-- Modelled from the spec: §4.2 — the length of the current run of
consecutive pages that yielded zero new distinct product identifiers. -/
def newStreak (seen : List Nat) (items : List RawProduct) (streak : Nat) : Nat :=
  if (newIds seen items).length = 0 then streak + 1 else 0

/-- Modelled from the spec: §4.2 CatalogExtractor pagination — request
page `page`, stop on a fetch failure, a short page, a two-page run of
zero new distinct identifiers, or when the remaining page budget
(`fuel`, initially the configured maximum page count) is exhausted.
Returns the requested page numbers and the collected raw items. -/
def catalogLoop (feed : Nat → Option (List RawProduct)) (pageSize : Nat) :
    Nat → Nat → List Nat → Nat → List Nat × List RawProduct
  | 0, _, _, _ => ([], [])
  | fuel + 1, page, seen, streak =>
    match feed page with
    | none => ([page], [])
    | some items =>
      if stopAfter pageSize items.length (newStreak seen items streak) then
        ([page], items)
      else
        let res := catalogLoop feed pageSize fuel (page + 1)
          (seen ++ newIds seen items) (newStreak seen items streak)
        (page :: res.1, items ++ res.2)

/-- Generic first-seen deduplication by a key, with an accumulator of
keys already seen; used for the spec-mandated deduplications (§4.2
products by identifier, §4.3 hero items by URL, §4.5 questions, §4.7
contact entries, §4.8 links by normalized URL). -/
def dedupFirst {α β : Type} [DecidableEq β] (key : α → β) :
    List α → List β → List α
  | [], _ => []
  | x :: xs, seen =>
    if key x ∈ seen then dedupFirst key xs seen
    else x :: dedupFirst key xs (key x :: seen)

/-- Modelled from the spec: §3 Product invariant — a non-negative
decimal price string: non-empty, only digits and at most one decimal
point, with at least one digit. -/
def isNonNegDecimal (s : String) : Bool :=
  !(s == "") && s.toList.all (fun c => c.isDigit || c = '.') &&
  decide ((s.toList.filter (fun c => c = '.')).length ≤ 1) &&
  s.toList.any Char.isDigit

/-- Modelled from the spec: §4.2 — normalization of the raw price and
currency into the `Product` shape: a price is kept only as a
non-negative decimal string paired with a currency code; otherwise both
are dropped. -/
def normalizePrice (price currency : Option String) :
    Option String × Option String :=
  match price, currency with
  | some p, some c => if isNonNegDecimal p then (some p, some c) else (none, none)
  | _, _ => (none, none)

/-- Modelled from the spec: §4.2 — a raw feed item becomes a `Product`;
items missing a title (empty after trimming) are dropped. -/
def normalizeProduct (r : RawProduct) : Option Product :=
  if jsTrim r.title = "" then none
  else
    let pc := normalizePrice r.price r.currency
    some { id := some r.id, title := r.title, description := r.description,
           price := pc.1, currency := pc.2, image_url := r.image_url,
           product_url := r.product_url, available := r.available,
           tags := r.tags, category := r.category }

/-- Modelled from the spec: §4.2 CatalogExtractor — paginate the feed,
deduplicate by product identifier preserving first-seen order, and
normalize into `Product`s; an unreachable feed yields the empty
sequence. -/
def catalogExtract (cfg : RunConfig) (feed : Nat → Option (List RawProduct)) :
    List Product :=
  let collected := (catalogLoop feed cfg.pageSize cfg.maxPages 1 [] 0).2
  (dedupFirst RawProduct.id collected []).filterMap normalizeProduct

/-- Modelled from the spec: §4.3 HeroProductExtractor — a
product-card-like structure found in the homepage markup (image, title,
link). -/
structure HeroCard where
  title : String
  image_url : Option String
  product_url : String
  price : Option String
  currency : Option String
  description : Option String
deriving Repr, DecidableEq

/-- Modelled from the spec: §4.3 HeroProductExtractor — each homepage
card is resolved against the already-extracted catalog by detail URL;
unresolved cards are kept as standalone entries built from the visible
fields (dropped when even the visible title is missing); the result is
deduplicated by URL, order preserved. -/
def heroExtract (catalog : List Product) (cards : List HeroCard) :
    List Product :=
  dedupFirst (fun p => p.product_url)
    (cards.filterMap (fun c =>
      match catalog.find? (fun p => p.product_url == some c.product_url) with
      | some p => some p
      | none =>
        if jsTrim c.title = "" then none
        else
          let pc := normalizePrice c.price c.currency
          some { id := none, title := c.title, description := c.description,
                 price := pc.1, currency := pc.2, image_url := c.image_url,
                 product_url := some c.product_url, available := none,
                 tags := none, category := none })) []

/-- Modelled from the spec: §3 Policies — the fixed enumerated set of
policy kinds. -/
inductive PolicyKind : Type where
  | privacy
  | returnPolicy
  | refund
  | shipping
  | termsOfService
deriving Repr, DecidableEq

/-- Modelled from the spec: §4.4 PolicyExtractor — the first successful
non-empty text body among the candidates (conventional policy page path
first, then keyword-matched link) wins; a kind with no candidate is
absent. -/
def firstNonEmptyText : List (Option String) → Option String
  | [] => none
  | some t :: rest => if t = "" then firstNonEmptyText rest else some t
  | none :: rest => firstNonEmptyText rest

/-- Modelled from the spec: §4.4 PolicyExtractor — for each policy kind
the ordered candidate text bodies are tried and the first non-empty one
is kept; kinds not found are simply absent from the map. -/
def policyExtract (sources : PolicyKind → List (Option String)) : Policy :=
  { privacy_policy := firstNonEmptyText (sources .privacy),
    return_policy := firstNonEmptyText (sources .returnPolicy),
    refund_policy := firstNonEmptyText (sources .refund),
    shipping_policy := firstNonEmptyText (sources .shipping),
    terms_of_service := firstNonEmptyText (sources .termsOfService) }

/-- Modelled from the spec: §4.5 FAQExtractor — question/answer pairs
are kept only when both sides are non-empty after trimming; duplicate
questions (normalized, case-insensitive) are merged keeping the first
answer seen. -/
def faqExtract (pairs : List (String × String)) : List FAQ :=
  dedupFirst (fun f => f.question.toLower)
    ((pairs.filter (fun qa => !(jsTrim qa.1 == "") && !(jsTrim qa.2 == ""))).map
      (fun qa => { question := qa.1, answer := qa.2, category := none })) []

/-- Modelled from the spec: §4.6 SocialHandleExtractor — the page region
where an outbound link was found, used by the tie-break rule. -/
inductive Region : Type where
  | header
  | footer
  | body
deriving Repr, DecidableEq, BEq

/-- Modelled from the spec: §4.6 — an outbound link of a fetched page
with its region. -/
structure FoundLink where
  url : String
  region : Region
deriving Repr, DecidableEq

/-- Modelled from the spec: §3 SocialHandle — the known social-platform
domain patterns and the recognized platform names. -/
def platformDomains : List (String × String) :=
  [("instagram.com", "Instagram"), ("facebook.com", "Facebook"),
   ("tiktok.com", "TikTok"), ("twitter.com", "Twitter/X"),
   ("x.com", "Twitter/X"), ("pinterest.com", "Pinterest"),
   ("youtube.com", "YouTube"), ("linkedin.com", "LinkedIn"),
   ("snapchat.com", "Snapchat")]

/-- Modelled from the spec: §4.6 — the handle is extracted from the URL
path, the first path segment after the platform domain. -/
def pathHandle (url dom : String) : String :=
  match (url.splitOn (dom ++ "/"))[1]? with
  | some rest =>
    String.mk (rest.toList.takeWhile (fun c => !(c = '/' || c = '?' || c = '#')))
  | none => ""

/-- Modelled from the spec: §4.6 — match an outbound URL against the
known platform domain patterns and extract the handle. -/
def detectPlatform (url : String) : Option (String × String) :=
  (platformDomains.find? (fun d => strContains url d.1)).map
    (fun d => (d.2, pathHandle url d.1))

/-- Modelled from the spec: §4.6 tie-break rule — footer and header
occurrences are preferred over body occurrences. -/
def preferRegion : Region → Bool
  | .header => true
  | .footer => true
  | .body => false

/-- Modelled from the spec: §4.6 — insert a detected handle: a platform
not yet present is appended; an already-present platform keeps its entry
unless that entry came from body content and the new one from a
footer/header region, in which case it is replaced in place; otherwise
the first encountered wins. -/
def insertSocial (acc : List (SocialHandle × Region))
    (nh : SocialHandle × Region) : List (SocialHandle × Region) :=
  if acc.any (fun x => x.1.platform == nh.1.platform) then
    acc.map (fun x =>
      if x.1.platform == nh.1.platform && x.2 == Region.body && preferRegion nh.2
      then nh else x)
  else acc ++ [nh]

/-- Modelled from the spec: §4.6 SocialHandleExtractor — scan the
outbound links for social-platform URLs and keep at most one handle per
platform under the tie-break rule. -/
def socialExtract (links : List FoundLink) : List SocialHandle :=
  ((links.filterMap (fun l =>
    (detectPlatform l.url).map (fun ph =>
      (({ platform := ph.1, handle := ph.2, url := some l.url } : SocialHandle),
       l.region)))).foldl insertSocial []).map Prod.fst

/-- Modelled from the spec: §4.7 ContactExtractor — phone numbers are
stripped to digits with a leading plus when one was present. -/
def normalizePhone (s : String) : String :=
  let digits := s.toList.filter Char.isDigit
  if s.toList.contains '+' then String.mk ('+' :: digits)
  else String.mk digits

/-- Modelled from the spec: §4.7 ContactExtractor — emails lower-cased
and deduplicated, phone numbers normalized and deduplicated, addresses
deduplicated, plus the optional contact-form URL. -/
def contactExtract (emails phones addresses : List String)
    (form : Option String) : ContactInfo :=
  { emails := dedupFirst id (emails.map String.toLower) [],
    phone_numbers := dedupFirst id (phones.map normalizePhone) [],
    addresses := dedupFirst id addresses [],
    contact_form_url := form }

/-- Modelled from the spec: §4.8 LinkExtractor — URL normalization for
deduplication: lower-case with the trailing slash stripped. -/
def normalizeUrl (u : String) : String :=
  let l := u.toLower
  if l.endsWith "/" then l.dropRight 1 else l

/-- Modelled from the spec: §4.8 LinkExtractor — keyword-matched
outbound links deduplicated by normalized URL. -/
def linkExtract (candidates : List ImportantLink) : List ImportantLink :=
  dedupFirst (fun l => normalizeUrl l.url) candidates []

/-- Modelled from the spec: §4.9 BrandContextExtractor — the narrative
block is returned verbatim, absent when no qualifying block exceeds the
minimum length threshold. -/
def brandContextExtract (minLen : Nat) : Option String → Option String
  | some s => if minLen < s.length then some s else none
  | none => none

/-- Modelled from the spec: §4.10 CompetitorDiscovery — candidate
competitors bounded by the maximum competitor count; the nested reduced
re-run is outside the claims and its result is left absent. -/
def competitorsExtract (maxCount : Nat)
    (candidates : List (String × String × Option String)) : List Competitor :=
  (candidates.take maxCount).map (fun c => Competitor.mk c.1 c.2.1 c.2.2 none)

/-- Modelled from the spec: §2 and §5 — everything one run reads from
the outside world: the fetched surfaces handed to the per-category
extractors, plus the run metadata. -/
structure ExtractionInputs where
  brandName : String
  websiteUrl : String
  scrapedAt : String
  catalogFeed : Nat → Option (List RawProduct)
  homepageCards : List HeroCard
  policySources : PolicyKind → List (Option String)
  faqPairs : List (String × String)
  socialLinks : List FoundLink
  rawEmails : List String
  rawPhones : List String
  rawAddresses : List String
  contactFormUrl : Option String
  linkCandidates : List ImportantLink
  aboutText : Option String
  competitorCandidates : List (String × String × Option String)
  storeTheme : Option String
  currencyGuess : Option String
  languageGuess : Option String

/-- Modelled from the spec: §4.11 InsightAggregator / Orchestrator — one
validated run: dispatch the independent extractors over the fetched
surfaces and merge their fragments into the single `StoreInsights`
aggregate, with `total_products` set to the catalog length. -/
def runOrchestrator (cfg : RunConfig) (inp : ExtractionInputs) : StoreInsights :=
  let products := catalogExtract cfg inp.catalogFeed
  { brand_name := inp.brandName,
    website_url := inp.websiteUrl,
    products := products,
    hero_products := heroExtract products inp.homepageCards,
    policies := policyExtract inp.policySources,
    faqs := faqExtract inp.faqPairs,
    social_handles := socialExtract inp.socialLinks,
    contact_info := contactExtract inp.rawEmails inp.rawPhones
      inp.rawAddresses inp.contactFormUrl,
    brand_context := brandContextExtract cfg.minContextLen inp.aboutText,
    important_links := linkExtract inp.linkCandidates,
    competitors := competitorsExtract cfg.maxCompetitors inp.competitorCandidates,
    scraped_at := inp.scrapedAt,
    total_products := products.length,
    store_theme := inp.storeTheme,
    currency := inp.currencyGuess,
    language := inp.languageGuess }

/-- The field names of `interface StoreInsights` (`src/unnamed/part_001`,
lines 54-71) in declaration order, each paired with whether the
TypeScript field is optional (`?`). -/
def storeInsightsFields : List (String × Bool) :=
  [("brand_name", false), ("website_url", false), ("products", false),
   ("hero_products", false), ("policies", false), ("faqs", false),
   ("social_handles", false), ("contact_info", false),
   ("brand_context", true), ("important_links", false),
   ("competitors", false), ("scraped_at", false), ("total_products", false),
   ("store_theme", true), ("currency", true), ("language", true)]

/-- Following the spec's words (§3 StoreInsights and the claim): brand
name, website URL, products, hero_products, policies, faqs,
social_handles, contact_info, brand_context, important_links,
competitors, scraped_at, total_products, store_theme, currency and
language, with brand_context, store_theme, currency and language the
only optional fields. -/
def specStoreInsightsFields : List (String × Bool) :=
  [("brand_name", false), ("website_url", false), ("products", false),
   ("hero_products", false), ("policies", false), ("faqs", false),
   ("social_handles", false), ("contact_info", false),
   ("brand_context", true), ("important_links", false),
   ("competitors", false), ("scraped_at", false), ("total_products", false),
   ("store_theme", true), ("currency", true), ("language", true)]

/-- The field names of `interface Product` (`src/unnamed/part_001`,
lines 1-12) in declaration order, each paired with whether the
TypeScript field is optional (`?`). -/
def productFields : List (String × Bool) :=
  [("id", true), ("title", false), ("description", true), ("price", true),
   ("currency", true), ("image_url", true), ("product_url", true),
   ("available", true), ("tags", true), ("category", true)]

/-- The §3 Product invariant: non-empty title, and a present price is a
non-negative decimal string paired with a currency code. -/
def productInv (p : Product) : Prop :=
  p.title ≠ "" ∧ ∀ pr, p.price = some pr →
    isNonNegDecimal pr = true ∧ p.currency ≠ none

/-- A raw catalog feed item used by the concrete witnesses. -/
def sampleRawTee : RawProduct :=
  { id := 1, title := "Tee", description := none, price := some "10.00",
    currency := some "USD", image_url := none,
    product_url := some "https://acme.example/products/tee",
    available := some true, tags := none, category := none }

/-- The normalization of `sampleRawTee`. -/
def sampleTee : Product :=
  { id := some 1, title := "Tee", description := none, price := some "10.00",
    currency := some "USD", image_url := none,
    product_url := some "https://acme.example/products/tee",
    available := some true, tags := none, category := none }

/-- A one-page catalog feed used by the concrete witnesses. -/
def sampleFeed : Nat → Option (List RawProduct) :=
  fun n => if n = 1 then some [sampleRawTee] else none

/-- A small run configuration used by the concrete witnesses. -/
def sampleCfg : RunConfig :=
  { pageSize := 2, maxPages := 5, maxCompetitors := 3, minContextLen := 10 }

/-- Extraction inputs with a working one-page catalog, used by the
concrete witnesses. -/
def sampleInputs : ExtractionInputs :=
  { brandName := "Acme", websiteUrl := "https://acme.example",
    scrapedAt := "2026-01-01T00:00:00Z", catalogFeed := sampleFeed,
    homepageCards := [], policySources := fun _ => [], faqPairs := [],
    socialLinks := [], rawEmails := [], rawPhones := [], rawAddresses := [],
    contactFormUrl := none, linkCandidates := [], aboutText := none,
    competitorCandidates := [], storeTheme := none, currencyGuess := none,
    languageGuess := none }

/-- A homepage product card used by the degraded-run witness. -/
def sampleHeroCard : HeroCard :=
  { title := "Hat", image_url := none,
    product_url := "https://acme.example/products/hat", price := none,
    currency := none, description := none }

/-- Extraction inputs whose catalog feed is unreachable but whose
homepage parse found a card, used by the degraded-run witness. -/
def sampleInputsNoCatalog : ExtractionInputs :=
  { sampleInputs with
    catalogFeed := (fun _ => none),
    homepageCards := [sampleHeroCard],
    faqPairs := [("Ships fast?", "Yes.")],
    socialLinks := [{ url := "https://instagram.com/acme", region := .footer }],
    rawEmails := ["Jane@Acme.example"] }

/-- Policy candidate texts used by the policy witness. -/
def samplePolicySources : PolicyKind → List (Option String) :=
  fun k => match k with
  | .privacy => [none, some "We value privacy."]
  | _ => []

/-- Outbound links with a duplicated platform, used by the social-handle
witness. -/
def sampleSocialLinks : List FoundLink :=
  [{ url := "https://instagram.com/acme", region := .body },
   { url := "https://instagram.com/acme_official", region := .footer },
   { url := "https://facebook.com/acme", region := .body }]

/-- A successful API response carrying one aggregate, used by the
response-outcome witness. -/
def sampleInsights : StoreInsights :=
  { brand_name := "Acme", website_url := "https://acme.example",
    products := [], hero_products := [],
    policies := { privacy_policy := none, return_policy := none,
                  refund_policy := none, shipping_policy := none,
                  terms_of_service := none },
    faqs := [], social_handles := [],
    contact_info := { emails := [], phone_numbers := [], addresses := [],
                      contact_form_url := none },
    brand_context := none, important_links := [], competitors := [],
    scraped_at := "2026-01-01T00:00:00Z", total_products := 0,
    store_theme := none, currency := none, language := none }

/-- The `InsightResponse` envelope around `sampleInsights`. -/
def sampleOkResponse : InsightResponse :=
  { success := true, data := some sampleInsights, error := none,
    message := none, processing_time := none }

theorem mem_of_mem_dedupFirst {α β : Type} [DecidableEq β] (key : α → β) :
    ∀ (l : List α) (seen : List β) (x : α), x ∈ dedupFirst key l seen → x ∈ l := by
  intro l
  induction l with
  | nil => intro seen x h; simp [dedupFirst] at h
  | cons a as ih =>
    intro seen x h
    simp only [dedupFirst] at h
    split at h
    · exact List.mem_cons_of_mem a (ih _ x h)
    · rcases List.mem_cons.mp h with h | h
      · exact h ▸ List.mem_cons_self a as
      · exact List.mem_cons_of_mem a (ih _ x h)

theorem firstNonEmptyText_ne_empty :
    ∀ (l : List (Option String)) (t : String),
      firstNonEmptyText l = some t → t ≠ "" := by
  intro l
  induction l with
  | nil => intro t h; simp [firstNonEmptyText] at h
  | cons o rest ih =>
    intro t h
    cases o with
    | none =>
      simp only [firstNonEmptyText] at h
      exact ih t h
    | some s =>
      by_cases hs : s = ""
      · simp only [firstNonEmptyText, if_pos hs] at h
        exact ih t h
      · simp only [firstNonEmptyText, if_neg hs] at h
        cases h
        exact hs

theorem normalizePrice_inv (a b : Option String) (pr : String)
    (h : (normalizePrice a b).1 = some pr) :
    isNonNegDecimal pr = true ∧ (normalizePrice a b).2 ≠ none := by
  cases a with
  | none => simp [normalizePrice] at h
  | some p =>
    cases b with
    | none => simp [normalizePrice] at h
    | some c =>
      by_cases hd : isNonNegDecimal p = true
      · simp only [normalizePrice, if_pos hd] at h ⊢
        cases h
        exact ⟨hd, by simp⟩
      · simp [normalizePrice, hd] at h

theorem normalizeProduct_inv (r : RawProduct) (p : Product)
    (h : normalizeProduct r = some p) : productInv p := by
  by_cases ht : jsTrim r.title = ""
  · simp [normalizeProduct, ht] at h
  · simp only [normalizeProduct, if_neg ht] at h
    cases h
    refine ⟨?_, ?_⟩
    · intro h0
      apply ht
      rw [show r.title = "" from h0]
      rfl
    · intro pr hpr
      exact normalizePrice_inv r.price r.currency pr hpr

theorem catalogExtract_inv (cfg : RunConfig) (feed : Nat → Option (List RawProduct))
    (p : Product) (h : p ∈ catalogExtract cfg feed) : productInv p := by
  simp only [catalogExtract] at h
  rcases List.mem_filterMap.mp h with ⟨r, _, hr⟩
  exact normalizeProduct_inv r p hr

theorem heroExtract_inv (catalog : List Product) (cards : List HeroCard)
    (hcat : ∀ p ∈ catalog, productInv p) :
    ∀ p ∈ heroExtract catalog cards, productInv p := by
  intro p hp
  simp only [heroExtract] at hp
  have hp2 := mem_of_mem_dedupFirst (fun q => q.product_url) _ _ p hp
  rcases List.mem_filterMap.mp hp2 with ⟨c, _, hc⟩
  cases hfind : catalog.find? (fun q => q.product_url == some c.product_url) with
  | some q =>
    rw [hfind] at hc
    have hq := List.mem_of_find?_eq_some hfind
    cases hc
    exact hcat _ hq
  | none =>
    rw [hfind] at hc
    by_cases ht : jsTrim c.title = ""
    · simp [ht] at hc
    · simp only [if_neg ht] at hc
      cases hc
      refine ⟨?_, ?_⟩
      · intro h0
        apply ht
        rw [show c.title = "" from h0]
        rfl
      · intro pr hpr
        exact normalizePrice_inv c.price c.currency pr hpr

theorem catalogLoop_length_le (feed : Nat → Option (List RawProduct)) (ps : Nat) :
    ∀ (fuel page : Nat) (seen : List Nat) (streak : Nat),
      (catalogLoop feed ps fuel page seen streak).1.length ≤ fuel := by
  intro fuel
  induction fuel with
  | zero => intro page seen streak; simp [catalogLoop]
  | succ n ih =>
    intro page seen streak
    simp only [catalogLoop]
    cases hf : feed page with
    | none => simp
    | some items =>
      by_cases hstop : stopAfter ps items.length (newStreak seen items streak) = true
      · simp [hstop]
      · simp only [hstop, if_false, Bool.false_eq_true, if_neg, List.length_cons]
        exact Nat.succ_le_succ (ih (page + 1) (seen ++ newIds seen items)
          (newStreak seen items streak))

theorem catalogExtract_feed_none (cfg : RunConfig)
    (feed : Nat → Option (List RawProduct)) (h : feed 1 = none) :
    catalogExtract cfg feed = [] := by
  cases hm : cfg.maxPages with
  | zero => simp [catalogExtract, hm, catalogLoop, dedupFirst]
  | succ n => simp [catalogExtract, hm, catalogLoop, h, dedupFirst]

theorem policyEntryAux (k : String) (v : Option String) (kv : String × String)
    (h : (match v with
          | some t => if t = "" then none else some (k, t)
          | none => none) = some kv) : kv.1 = k ∧ kv.2 ≠ "" := by
  cases v with
  | none => simp at h
  | some t =>
    by_cases hte : t = ""
    · simp [hte] at h
    · simp only [if_neg hte] at h
      cases h
      exact ⟨rfl, hte⟩

theorem policyEntries_sound (p : Policy) (kv : String × String)
    (h : kv ∈ policyEntries p) : kv.1 ∈ policyKeyNames ∧ kv.2 ≠ "" := by
  simp only [policyEntries, List.mem_filterMap] at h
  rcases h with ⟨a, ha, hfa⟩
  simp only [List.mem_cons, List.not_mem_nil, or_false] at ha
  rcases ha with rfl | rfl | rfl | rfl | rfl
  · refine ⟨?_, (policyEntryAux _ _ _ hfa).2⟩
    rw [(policyEntryAux _ _ _ hfa).1]
    show "privacy_policy" ∈ policyKeyNames
    decide
  · refine ⟨?_, (policyEntryAux _ _ _ hfa).2⟩
    rw [(policyEntryAux _ _ _ hfa).1]
    show "return_policy" ∈ policyKeyNames
    decide
  · refine ⟨?_, (policyEntryAux _ _ _ hfa).2⟩
    rw [(policyEntryAux _ _ _ hfa).1]
    show "refund_policy" ∈ policyKeyNames
    decide
  · refine ⟨?_, (policyEntryAux _ _ _ hfa).2⟩
    rw [(policyEntryAux _ _ _ hfa).1]
    show "shipping_policy" ∈ policyKeyNames
    decide
  · refine ⟨?_, (policyEntryAux _ _ _ hfa).2⟩
    rw [(policyEntryAux _ _ _ hfa).1]
    show "terms_of_service" ∈ policyKeyNames
    decide

theorem map_platform_replace (acc : List (SocialHandle × Region))
    (nh : SocialHandle × Region) :
    (acc.map (fun x =>
      if x.1.platform == nh.1.platform && x.2 == Region.body && preferRegion nh.2
      then nh else x)).map (fun x => x.1.platform) =
    acc.map (fun x => x.1.platform) := by
  induction acc with
  | nil => rfl
  | cons a as ih =>
    simp only [List.map_cons]
    congr 1
    by_cases hc : (a.1.platform == nh.1.platform && a.2 == Region.body &&
        preferRegion nh.2) = true
    · rw [if_pos hc]
      have h1 : (a.1.platform == nh.1.platform) = true := by
        simp only [Bool.and_eq_true] at hc
        exact hc.1.1
      exact (eq_of_beq h1).symm
    · rw [if_neg hc]

theorem insertSocial_nodup (acc : List (SocialHandle × Region))
    (nh : SocialHandle × Region)
    (h : (acc.map (fun x => x.1.platform)).Nodup) :
    ((insertSocial acc nh).map (fun x => x.1.platform)).Nodup := by
  by_cases hany : acc.any (fun x => x.1.platform == nh.1.platform) = true
  · have hrepl : insertSocial acc nh = acc.map (fun x =>
        if x.1.platform == nh.1.platform && x.2 == Region.body && preferRegion nh.2
        then nh else x) := by
      simp only [insertSocial]
      rw [if_pos hany]
    rw [hrepl, map_platform_replace]
    exact h
  · simp only [insertSocial, if_neg hany]
    rw [List.map_append]
    refine ((List.perm_append_singleton _ _).nodup_iff).mpr ?_
    refine List.nodup_cons.mpr ⟨?_, h⟩
    intro hmem
    rcases List.mem_map.mp hmem with ⟨x, hx, hxe⟩
    exact hany (List.any_eq_true.mpr ⟨x, hx, by simp [hxe]⟩)

theorem foldl_insertSocial_nodup (ls : List (SocialHandle × Region)) :
    ∀ acc, (acc.map (fun x => x.1.platform)).Nodup →
      ((ls.foldl insertSocial acc).map (fun x => x.1.platform)).Nodup := by
  induction ls with
  | nil => intro acc h; simpa using h
  | cons a as ih => intro acc h; exact ih _ (insertSocial_nodup acc a h)

theorem pushSection_titles (secs : List AnalysisSection) (cur content : String)
    (h : ∀ s ∈ secs, s.title ∈ sectionTitles) :
    ∀ s ∈ pushSection secs cur content, s.title ∈ sectionTitles := by
  intro s hs
  simp only [pushSection] at hs
  split at hs
  · cases hfind : sectionData.find? (fun sd => sd.1 = cur) with
    | none =>
      rw [hfind] at hs
      exact h s hs
    | some sd =>
      rw [hfind] at hs
      rcases List.mem_append.mp hs with hs | hs
      · exact h s hs
      · have hse : s = { title := sd.1, content := jsTrim content, color := sd.2 } := by
          simpa using hs
        subst hse
        have hmem := List.mem_of_find?_eq_some hfind
        simp only [sectionTitles]
        exact List.mem_map_of_mem Prod.fst hmem
  · exact h s hs

theorem parseStep_titles (st : String × String × List AnalysisSection)
    (line : String) (h : ∀ s ∈ st.2.2, s.title ∈ sectionTitles) :
    ∀ s ∈ (parseStep st line).2.2, s.title ∈ sectionTitles := by
  rcases st with ⟨cur, content, secs⟩
  simp only [parseStep]
  split
  · intro s hs
    exact pushSection_titles secs cur content h s hs
  · split
    · exact h
    · exact h

theorem foldl_parseStep_titles (lines : List String) :
    ∀ st, (∀ s ∈ st.2.2, s.title ∈ sectionTitles) →
      ∀ s ∈ (lines.foldl parseStep st).2.2, s.title ∈ sectionTitles := by
  induction lines with
  | nil => intro st h; simpa using h
  | cons l ls ih => intro st h; exact ih _ (parseStep_titles st l h)

theorem parsedSections_titles (text : String) :
    ∀ s ∈ parsedSections text, s.title ∈ sectionTitles := by
  simp only [parsedSections]
  exact pushSection_titles _ _ _
    (foldl_parseStep_titles (splitLines text) ("", "", []) (by simp))

theorem generateBasicAnalysis_titles (i : StoreInsights) :
    ∀ s ∈ generateBasicAnalysis i, s.title ∈ sectionTitles := by
  intro s hs
  simp only [generateBasicAnalysis, List.mem_cons, List.not_mem_nil, or_false] at hs
  rcases hs with rfl | rfl | rfl | rfl | rfl | rfl | rfl <;> (dsimp only; decide)

theorem generateBasicAnalysis_ne_nil (i : StoreInsights) :
    generateBasicAnalysis i ≠ [] := by
  simp [generateBasicAnalysis]

/-- C1: for every run's produced `StoreInsights` aggregate, the field
`total_products` equals the length of the `products` sequence, and every
product in `products` has a non-empty title. -/
theorem run_total_products_and_titles (cfg : RunConfig) (inp : ExtractionInputs) :
    (runOrchestrator cfg inp).total_products =
      (runOrchestrator cfg inp).products.length ∧
    ∀ p ∈ (runOrchestrator cfg inp).products, p.title ≠ "" := by
  refine ⟨rfl, ?_⟩
  intro p hp
  exact (catalogExtract_inv cfg inp.catalogFeed p hp).1

/-- Witness for C1: a concrete run where the aggregate carries one
product, instantiating the theorem at it. -/
theorem run_total_products_and_titles_w :
    (runOrchestrator sampleCfg sampleInputs).total_products =
      (runOrchestrator sampleCfg sampleInputs).products.length ∧
    sampleTee.title ≠ "" :=
  ⟨(run_total_products_and_titles sampleCfg sampleInputs).1,
   (run_total_products_and_titles sampleCfg sampleInputs).2 sampleTee (by decide)⟩

/-- C2: the `StoreInsights` record has exactly the sixteen fields named
by the spec, in that order, and `brand_context`, `store_theme`,
`currency` and `language` are the only optional ones — the field list
transcribed from the TypeScript interface coincides with the field list
transcribed from the spec's words. -/
theorem wire_contract_fields :
    storeInsightsFields = specStoreInsightsFields ∧
    storeInsightsFields.length = 16 ∧
    (storeInsightsFields.filter Prod.snd).map Prod.fst =
      ["brand_context", "store_theme", "currency", "language"] :=
  ⟨by decide, by decide, by decide⟩

/-- C3: for every fetch outcome the `App` state after
`handleFetchInsights` is binary — either one aggregate is stored and the
error cleared, or no aggregate and a single error string — and an
aggregate is stored only for a successful response that carried it. -/
theorem response_outcome_binary (fr : FetchResult) :
    ((∃ d, (handleFetchInsights fr).insights = some d ∧
        (handleFetchInsights fr).error = none) ∨
     ((handleFetchInsights fr).insights = none ∧
        ∃ e, (handleFetchInsights fr).error = some e)) ∧
    ∀ d, (handleFetchInsights fr).insights = some d →
      ∃ r, fr = FetchResult.ok r ∧ r.success = true ∧ r.data = some d := by
  cases fr with
  | thrown m =>
    refine ⟨Or.inr ⟨rfl, m, rfl⟩, ?_⟩
    intro d hd
    simp [handleFetchInsights] at hd
  | ok r =>
    rcases r with ⟨succ, data, err, msg, pt⟩
    cases data with
    | none =>
      refine ⟨Or.inr ⟨rfl, _, rfl⟩, ?_⟩
      intro d hd
      simp [handleFetchInsights] at hd
    | some d0 =>
      cases succ with
      | false =>
        refine ⟨Or.inr ⟨rfl, _, rfl⟩, ?_⟩
        intro d hd
        simp [handleFetchInsights] at hd
      | true =>
        refine ⟨Or.inl ⟨d0, rfl, rfl⟩, ?_⟩
        intro d hd
        have hde : d0 = d := by simpa [handleFetchInsights] using hd
        exact ⟨_, rfl, rfl, by rw [hde]⟩

/-- Witness for C3: the handler run on a concrete successful response,
instantiating the theorem's success-correspondence at it. -/
theorem response_outcome_binary_w :
    ∃ r, FetchResult.ok sampleOkResponse = FetchResult.ok r ∧
      r.success = true ∧ r.data = some sampleInsights :=
  (response_outcome_binary (FetchResult.ok sampleOkResponse)).2 sampleInsights rfl

/-- C4: in every produced aggregate, the rendered policy entries have
keys among the five policy kinds and no empty values, and each of the
five fields of the extracted `Policy` is either absent or a non-empty
string. -/
theorem policies_wellformed (sources : PolicyKind → List (Option String)) :
    (∀ kv ∈ policyEntries (policyExtract sources),
      kv.1 ∈ policyKeyNames ∧ kv.2 ≠ "") ∧
    (∀ t, (policyExtract sources).privacy_policy = some t → t ≠ "") ∧
    (∀ t, (policyExtract sources).return_policy = some t → t ≠ "") ∧
    (∀ t, (policyExtract sources).refund_policy = some t → t ≠ "") ∧
    (∀ t, (policyExtract sources).shipping_policy = some t → t ≠ "") ∧
    (∀ t, (policyExtract sources).terms_of_service = some t → t ≠ "") :=
  ⟨fun kv hkv => policyEntries_sound _ kv hkv,
   fun t ht => firstNonEmptyText_ne_empty _ t ht,
   fun t ht => firstNonEmptyText_ne_empty _ t ht,
   fun t ht => firstNonEmptyText_ne_empty _ t ht,
   fun t ht => firstNonEmptyText_ne_empty _ t ht,
   fun t ht => firstNonEmptyText_ne_empty _ t ht⟩

/-- Witness for C4: a concrete policy run with one found privacy text,
instantiating the theorem at its rendered entry and extracted field. -/
theorem policies_wellformed_w :
    ("privacy_policy" ∈ policyKeyNames ∧ "We value privacy." ≠ "") ∧
    "We value privacy." ≠ "" :=
  ⟨(policies_wellformed samplePolicySources).1
      ("privacy_policy", "We value privacy.") (by decide),
   (policies_wellformed samplePolicySources).2.1 "We value privacy." (by decide)⟩

/-- C5: in every run's result the `social_handles` sequence contains at
most one entry per platform. -/
theorem social_platforms_unique (links : List FoundLink) :
    ((socialExtract links).map SocialHandle.platform).Nodup := by
  simp only [socialExtract, List.map_map]
  exact foldl_insertSocial_nodup _ [] (by simp)

/-- Witness for C5: the theorem instantiated at a concrete link list
containing two links to the same platform. -/
theorem social_platforms_unique_w :
    ((socialExtract sampleSocialLinks).map SocialHandle.platform).Nodup :=
  social_platforms_unique sampleSocialLinks

/-- C6: the `Product` interface requires `title` and makes description,
price, currency, image URL, detail URL, availability, tags and category
optional; and every product in the aggregate (catalog or hero) has a
non-empty title and, when a price is present, a non-negative decimal
price string paired with a currency code. -/
theorem product_shape_invariant (cfg : RunConfig) (inp : ExtractionInputs) :
    (("title", false) ∈ productFields ∧
      ∀ n ∈ (["description", "price", "currency", "image_url", "product_url",
              "available", "tags", "category"] : List String),
        (n, true) ∈ productFields) ∧
    ∀ p, (p ∈ (runOrchestrator cfg inp).products ∨
          p ∈ (runOrchestrator cfg inp).hero_products) →
      p.title ≠ "" ∧ ∀ pr, p.price = some pr →
        isNonNegDecimal pr = true ∧ p.currency ≠ none := by
  refine ⟨⟨by decide, by decide⟩, ?_⟩
  intro p hp
  rcases hp with hp | hp
  · exact catalogExtract_inv cfg inp.catalogFeed p hp
  · exact heroExtract_inv (catalogExtract cfg inp.catalogFeed) inp.homepageCards
      (fun q hq => catalogExtract_inv cfg inp.catalogFeed q hq) p hp

/-- Witness for C6: the theorem instantiated at a concrete run and a
product carrying a price. -/
theorem product_shape_invariant_w :
    sampleTee.title ≠ "" ∧ isNonNegDecimal "10.00" = true ∧
      sampleTee.currency ≠ none :=
  ⟨((product_shape_invariant sampleCfg sampleInputs).2 sampleTee
      (Or.inl (by decide))).1,
   (((product_shape_invariant sampleCfg sampleInputs).2 sampleTee
      (Or.inl (by decide))).2 "10.00" (by decide)).1,
   (((product_shape_invariant sampleCfg sampleInputs).2 sampleTee
      (Or.inl (by decide))).2 "10.00" (by decide)).2⟩

/-- C7: when the catalog feed is unreachable the run still returns an
aggregate with an empty `products` sequence and `total_products = 0`,
while hero products are the standalone homepage entries and policies,
FAQs, social handles and contact info equal their own extractors'
outputs, independent of the catalog. -/
theorem degraded_run_aggregate (cfg : RunConfig) (inp : ExtractionInputs)
    (h : inp.catalogFeed 1 = none) :
    (runOrchestrator cfg inp).products = [] ∧
    (runOrchestrator cfg inp).total_products = 0 ∧
    (runOrchestrator cfg inp).hero_products = heroExtract [] inp.homepageCards ∧
    (runOrchestrator cfg inp).policies = policyExtract inp.policySources ∧
    (runOrchestrator cfg inp).faqs = faqExtract inp.faqPairs ∧
    (runOrchestrator cfg inp).social_handles = socialExtract inp.socialLinks ∧
    (runOrchestrator cfg inp).contact_info =
      contactExtract inp.rawEmails inp.rawPhones inp.rawAddresses
        inp.contactFormUrl := by
  have hc := catalogExtract_feed_none cfg inp.catalogFeed h
  refine ⟨hc, ?_, ?_, rfl, rfl, rfl, rfl⟩
  · show (catalogExtract cfg inp.catalogFeed).length = 0
    rw [hc]
    rfl
  · show heroExtract (catalogExtract cfg inp.catalogFeed) inp.homepageCards = _
    rw [hc]

/-- Witness for C7: a concrete run whose feed always fails but whose
homepage carries a card; the theorem is applied to it, and the hero
products are seen to be non-empty. -/
theorem degraded_run_aggregate_w :
    (runOrchestrator sampleCfg sampleInputsNoCatalog).products = [] ∧
    (runOrchestrator sampleCfg sampleInputsNoCatalog).total_products = 0 ∧
    (runOrchestrator sampleCfg sampleInputsNoCatalog).hero_products ≠ [] :=
  ⟨(degraded_run_aggregate sampleCfg sampleInputsNoCatalog rfl).1,
   (degraded_run_aggregate sampleCfg sampleInputsNoCatalog rfl).2.1,
   by decide⟩

/-- C8: for every upstream feed behaviour the pagination loop issues at
most the configured maximum number of page requests, the stop decision
fires on a page shorter than the page size and on a two-page run of
zero new distinct identifiers, and once it fires no further page is
requested. -/
theorem catalog_pagination_bounded (feed : Nat → Option (List RawProduct))
    (cfg : RunConfig) :
    (catalogLoop feed cfg.pageSize cfg.maxPages 1 [] 0).1.length ≤
      cfg.maxPages ∧
    (∀ itemsLen streak, itemsLen < cfg.pageSize →
      stopAfter cfg.pageSize itemsLen streak = true) ∧
    (∀ itemsLen streak, 2 ≤ streak →
      stopAfter cfg.pageSize itemsLen streak = true) ∧
    (∀ fuel page seen streak items, feed page = some items →
      stopAfter cfg.pageSize items.length (newStreak seen items streak) = true →
      (catalogLoop feed cfg.pageSize (fuel + 1) page seen streak).1 = [page]) := by
  refine ⟨catalogLoop_length_le feed cfg.pageSize cfg.maxPages 1 [] 0, ?_, ?_, ?_⟩
  · intro il st hil
    simp only [stopAfter, Bool.or_eq_true, decide_eq_true_eq]
    exact Or.inl hil
  · intro il st hst
    simp only [stopAfter, Bool.or_eq_true, decide_eq_true_eq]
    exact Or.inr hst
  · intro fuel page seen streak items hf hstop
    simp [catalogLoop, hf, hstop]

/-- Witness for C8: the theorem instantiated at the concrete sample feed
and configuration, with the stop decision checked at concrete numbers. -/
theorem catalog_pagination_bounded_w :
    (catalogLoop sampleFeed sampleCfg.pageSize sampleCfg.maxPages 1 [] 0).1.length
      ≤ sampleCfg.maxPages ∧
    stopAfter sampleCfg.pageSize 1 0 = true ∧
    stopAfter sampleCfg.pageSize 3 2 = true ∧
    (catalogLoop sampleFeed sampleCfg.pageSize (3 + 1) 1 [] 0).1 = [1] :=
  ⟨(catalog_pagination_bounded sampleFeed sampleCfg).1,
   (catalog_pagination_bounded sampleFeed sampleCfg).2.1 1 0 (by decide),
   (catalog_pagination_bounded sampleFeed sampleCfg).2.2.1 3 2 (by decide),
   (catalog_pagination_bounded sampleFeed sampleCfg).2.2.2 3 1 [] 0 [sampleRawTee]
     rfl (by decide)⟩

/-- Counterexample to C9 as stated: for the input starting with a
no-break space (U+00A0), the trimmed URL is non-empty and parses as a
valid URL, yet the handler sets a validation error and never calls
`onSubmit` — JavaScript `trim` removes U+00A0 but `new URL` does not
strip it, and the code validates the string as entered. -/
theorem submit_trim_claim_cex :
    jsTrim "\u00A0https://a.com" ≠ "" ∧
    urlParseOk (jsTrim "\u00A0https://a.com") = true ∧
    (handleSubmit "\u00A0https://a.com").submitted = none ∧
    (handleSubmit "\u00A0https://a.com").validationError =
      some "Please enter a valid URL" :=
  ⟨by decide, by decide, by decide, by decide⟩

/-- C9 (amended): the submit handler invokes `onSubmit` exactly when the
trimmed URL is non-empty and the string as entered (before trimming)
parses as a valid URL, passing the trimmed URL; otherwise it sets a
validation error message and never calls `onSubmit`. -/
theorem submit_gates_on_entered_url (s : String) :
    ((handleSubmit s).submitted = some (jsTrim s) ↔
      jsTrim s ≠ "" ∧ urlParseOk s = true) ∧
    ((handleSubmit s).submitted = none ↔
      ∃ e, (handleSubmit s).validationError = some e) ∧
    (∀ u, (handleSubmit s).submitted = some u → u = jsTrim s) := by
  simp only [handleSubmit]
  split_ifs with h1 h2
  · refine ⟨?_, by simp, by intro u hu; simp at hu⟩
    constructor
    · intro hc; simp at hc
    · rintro ⟨hne, _⟩; exact absurd h1 hne
  · have h2f : urlParseOk s = false := by simpa using h2
    refine ⟨?_, by simp, by intro u hu; simp at hu⟩
    constructor
    · intro hc; simp at hc
    · rintro ⟨_, hok⟩; simp [hok] at h2f
  · have h2t : urlParseOk s = true := by simpa using h2
    refine ⟨?_, by simp, ?_⟩
    · constructor
      · intro _; exact ⟨h1, h2t⟩
      · intro _; rfl
    · intro u hu
      injection hu with h
      exact h.symm

/-- Witness for C9 (amended): the theorem instantiated at a plain valid
URL, deriving that it is submitted trimmed. -/
theorem submit_gates_on_entered_url_w :
    (handleSubmit "https://a.com").submitted = some (jsTrim "https://a.com") :=
  ((submit_gates_on_entered_url "https://a.com").1).mpr ⟨by decide, by decide⟩

/-- C10: `parseAnalysis` always returns a non-empty list of sections
whose titles belong to the fixed seven-title set, and when no recognized
section can be parsed from the input it returns the seven-section basic
fallback. -/
theorem parse_analysis_shape (insights : StoreInsights) (text : String) :
    parseAnalysis insights text ≠ [] ∧
    (∀ s ∈ parseAnalysis insights text, s.title ∈ sectionTitles) ∧
    (parsedSections text = [] →
      parseAnalysis insights text = generateBasicAnalysis insights) := by
  refine ⟨?_, ?_, ?_⟩
  · simp only [parseAnalysis]
    by_cases hl : (parsedSections text).length > 0
    · rw [if_pos hl]
      intro he
      rw [he] at hl
      simp at hl
    · rw [if_neg hl]
      exact generateBasicAnalysis_ne_nil insights
  · simp only [parseAnalysis]
    by_cases hl : (parsedSections text).length > 0
    · rw [if_pos hl]
      exact parsedSections_titles text
    · rw [if_neg hl]
      exact generateBasicAnalysis_titles insights
  · intro he
    simp [parseAnalysis, he]

/-- Witness for C10: the theorem instantiated at a text with no
recognizable section, yielding the basic fallback. -/
theorem parse_analysis_shape_w :
    parseAnalysis sampleInsights "no sections" =
      generateBasicAnalysis sampleInsights :=
  (parse_analysis_shape sampleInsights "no sections").2.2 (by decide)
